import Mathlib

/-!
Verification of the dashboard layout engine in `src/script.js`
(`class DashboardEditor`): the responsive column resolver, the RowBlock
composer (`transformRowBlocks`), the row packer (`packRows`), the section
layout orchestrator (`layoutSection`), the fit-validation oracle
(`canWidgetFitInSection`) and the drop-target resolver (`getDropTarget`).

Widget heights are rem quantities; they are modelled as rationals.  The
DOM geometry consumed by the drop-target resolver is modelled as explicit
rectangle data passed to the resolver, exactly as the zones are built in
the source.  The editor's mutable fields that these functions read
(`this.sections`, `this.gridCanvas.offsetWidth`, the drag state) are
passed as explicit arguments.
-/

namespace Dashboard

/-- Widget size identifiers as used by the `data-size` attributes and
`getWidgetConfig`; `FILTER` is the pseudo-size of the filter-container
panel entry. -/
inductive WSize
  | XS | S | M | L | XL_row | XL_fill | FILTER
deriving DecidableEq, Repr

/-- `heightMode` values produced by `getWidgetConfig`. -/
inductive HeightMode
  | stretchRow | fillViewport
deriving DecidableEq, Repr

/-- A widget object as built by `addWidgetToLastSection` /
`handleDropFromPanel` / `createWidget`. -/
structure Widget where
  id : String
  size : WSize
  title : String
  minColSpan : Nat
  minHeightRem : ℚ
  heightMode : HeightMode
deriving DecidableEq, Repr

/-- A RowBlock as built inside `transformRowBlocks`:
`{ kind: 'rowblock', main, rail, id }`. -/
structure RowBlockData where
  main : Widget
  rail : List Widget
  id : String
deriving DecidableEq, Repr

/-- An element of the item sequences consumed by `transformRowBlocks` and
`packRows`: either a plain widget or a RowBlock (`kind === 'rowblock'`). -/
inductive Item
  | widget (w : Widget)
  | rowblock (rb : RowBlockData)
deriving DecidableEq, Repr

/-- A filter chip (`{id, label}`). -/
structure Filter where
  id : String
  label : String
deriving DecidableEq, Repr

/-- A filter group (`createFilterGroup`); the per-group layout constants are
not needed by the layout claims and are omitted. -/
structure FilterGroup where
  id : String
  title : String
  filters : List Filter
  widgets : List Widget
deriving DecidableEq, Repr

/-- A section of `this.sections`: either `{id, type:'widget', title, widgets}`
or `{id, type:'filter-group', group}`. -/
inductive Section
  | widgetSection (id : String) (title : String) (widgets : List Widget)
  | filterGroup (id : String) (group : FilterGroup)
deriving DecidableEq, Repr

/-- The `id` field of a section object. -/
def Section.id : Section → String
  | .widgetSection i _ _ => i
  | .filterGroup i _ => i

/-- A cell of a packed row: `{ item, span }`, with `distributeEqually`
possibly set by `packRows`' flush. -/
structure Cell where
  item : Item
  span : Nat
  distributeEqually : Bool := false
deriving DecidableEq, Repr

/-- A row produced by `packRows`: `{ cells }`. -/
structure Row where
  cells : List Cell
deriving DecidableEq, Repr

/-- The object returned by `layoutSection`: `{type:'widget', colCount, rows}`
or `{type:'filter-group', group, colCount, rows, containerWidth}`. -/
inductive Layout
  | widgetLayout (colCount : Nat) (rows : List Row)
  | filterGroupLayout (group : FilterGroup) (colCount : Nat) (rows : List Row)
      (containerWidth : ℚ)
deriving DecidableEq, Repr

/-- The `rows` field of a layout. -/
def Layout.rows : Layout → List Row
  | .widgetLayout _ rows => rows
  | .filterGroupLayout _ _ rows _ => rows

/-! Layout configuration constants (`this.layoutConfig`, `this.TOKENS`). -/

/-- `layoutConfig.maxRailItems`: max widgets in a RowBlock rail. -/
def maxRailItems : Nat := 4

/-- `layoutConfig.toleranceRem`: height tolerance for rail matching. -/
def toleranceRem : ℚ := 2

/-- `layoutConfig.vGapRem`: vertical gap in a rail, in rem. -/
def vGapRem : ℚ := 0.75

/-- `TOKENS.minHeightsRem`: minimum heights per size key. -/
def TOKENS_minHeightsRem_XS : ℚ := 10

/-- `TOKENS.minHeightsRem.S`. -/
def TOKENS_minHeightsRem_S : ℚ := 16

/-- `TOKENS.minHeightsRem.M`. -/
def TOKENS_minHeightsRem_M : ℚ := 22

/-- `TOKENS.minHeightsRem.L`. -/
def TOKENS_minHeightsRem_L : ℚ := 32

/-- `TOKENS.minHeightsRem.XL`. -/
def TOKENS_minHeightsRem_XL : ℚ := 46

/-- The configuration record returned by `getWidgetConfig`. -/
structure WidgetConfig where
  minColSpan : Nat
  minHeightRem : ℚ
  heightMode : HeightMode
  displayName : String
deriving DecidableEq, Repr

/-- `getWidgetConfig(size)`: the `switch` over size keys; the `default`
branch returns the XS configuration, so every size has a config. -/
def getWidgetConfig : WSize → WidgetConfig
  | .XS => ⟨1, TOKENS_minHeightsRem_XS, .stretchRow, "XS"⟩
  | .S => ⟨1, TOKENS_minHeightsRem_S, .stretchRow, "S"⟩
  | .M => ⟨2, TOKENS_minHeightsRem_M, .stretchRow, "M"⟩
  | .L => ⟨3, TOKENS_minHeightsRem_L, .stretchRow, "L"⟩
  | .XL_row => ⟨4, TOKENS_minHeightsRem_XL, .stretchRow, "XL (Row)"⟩
  | .XL_fill => ⟨4, TOKENS_minHeightsRem_XL, .fillViewport, "XL (Fill)"⟩
  | .FILTER => ⟨1, TOKENS_minHeightsRem_XS, .stretchRow, "XS"⟩

/-- `getColCountFromWidth(containerWidth)`: responsive breakpoints,
evaluated high to low. -/
def getColCountFromWidth (containerWidth : ℚ) : Nat :=
  if containerWidth ≥ 1200 then 4
  else if containerWidth ≥ 900 then 3
  else if containerWidth ≥ 600 then 2
  else 1

/-- `effectiveSpan(widget, colCount) = Math.min(widget.minColSpan, colCount)`. -/
def effectiveSpan (widget : Widget) (colCount : Nat) : Nat :=
  min widget.minColSpan colCount

/-- `isRowBlock(item)`: `item.kind === 'rowblock'`. -/
def isRowBlock : Item → Bool
  | .widget _ => false
  | .rowblock _ => true

/-- `itemSpan(item, colCount)`: RowBlocks always take full width, widgets
take their effective span. -/
def itemSpan (item : Item) (colCount : Nat) : Nat :=
  match item with
  | .rowblock _ => colCount
  | .widget w => effectiveSpan w colCount

/-! The RowBlock composer, `transformRowBlocks` (src/script.js:207-303).
The `while` loop over the mutable `items` array is embedded as a recursive
walk `transformGo` whose first list argument `acc` holds `items[0..i-1]`
in reverse (the part behind the cursor, which backward capture scans
front-to-back, i.e. right to left in the original order) and whose second
argument holds `items[i..]`. -/

/-- The `canTake(candidate)` closure of `transformRowBlocks`. -/
def canTake (colCount : Nat) (railTarget railHeight : ℚ) (railCount : Nat)
    (candidate : Widget) : Bool :=
  if railCount ≥ maxRailItems then false
  else if effectiveSpan candidate colCount ≠ 1 then false
  else railHeight + (if railCount > 0 then vGapRem else 0) + candidate.minHeightRem
        ≤ railTarget

/-- One capture scan of `transformRowBlocks` (both the backward `while (k >= 0)`
loop and the forward `while (j < items.length)` loop have this shape): walk
the given items, stopping at the first RowBlock, first non-span-1 widget or
first widget rejected by `canTake`, threading `railHeight`/`railCount`.
Returns the captured widgets in scan order; the caller removes that many
items from the scanned side (the `splice(start, count)` calls). -/
def captureRun (colCount : Nat) (railTarget : ℚ) :
    List Item → ℚ → Nat → List Widget
  | [], _, _ => []
  | it :: rest, railHeight, railCount =>
    match it with
    | .rowblock _ => []
    | .widget pw =>
      if effectiveSpan pw colCount ≠ 1 then []
      else if ¬ canTake colCount railTarget railHeight railCount pw then []
      else
        pw :: captureRun colCount railTarget rest
          (railHeight + (if railCount > 0 then vGapRem else 0) + pw.minHeightRem)
          (railCount + 1)

/-- The loop body of `transformRowBlocks`: `acc` is the already-scanned part
of the mutable `items` array in reverse order, the second argument is the
part from the cursor on.  A widget whose effective span is 3 seeds a
RowBlock; backward capture is tried first over `acc`, and only if it
captures nothing is forward capture tried over the remaining items; a seed
with an empty rail stays a plain widget.  The splices that remove captured
items are `List.drop` on the scanned side. -/
def transformGo (colCount : Nat) (acc : List Item) : List Item → List Item
  | [] => acc.reverse
  | cur :: rest =>
    match cur with
    | .rowblock _ => transformGo colCount (cur :: acc) rest
    | .widget w =>
      if effectiveSpan w colCount ≠ 3 then transformGo colCount (cur :: acc) rest
      else
        let railTarget := w.minHeightRem + toleranceRem
        let back := captureRun colCount railTarget acc 0 0
        if back ≠ [] then
          transformGo colCount
            (Item.rowblock ⟨w, back.reverse, "rb-" ++ w.id⟩ :: acc.drop back.length)
            rest
        else
          let fwd := captureRun colCount railTarget rest 0 0
          if fwd ≠ [] then
            transformGo colCount
              (Item.rowblock ⟨w, fwd, "rb-" ++ w.id⟩ :: acc) (rest.drop fwd.length)
          else transformGo colCount (cur :: acc) rest
  termination_by rest => rest.length
  decreasing_by
  all_goals simp only [List.length_cons, List.length_drop]
  all_goals omega

/-- `transformRowBlocks(widgetsInOrder, colCount)` (src/script.js:207-303):
RowBlocks only form in the 4-column layout; otherwise the input is returned
(as a fresh copy, equal as a sequence). -/
def transformRowBlocks (widgetsInOrder : List Item) (colCount : Nat) : List Item :=
  if colCount ≠ 4 then widgetsInOrder
  else transformGo colCount [] widgetsInOrder

/-! The row packer, `packRows` (src/script.js:314-395). -/

/-- The in-place expansion loop of `packRows`' flush
(`expandableWidgets.forEach((cell, idx) => ...)`), expressed as a walk over
the whole row that threads `idx`, the index among expandable (non-RowBlock)
cells: each expandable cell gains `extraPerWidget` columns plus one more for
the first `leftover` expandable cells, capped at `colCount`. -/
def expandCells (colCount extraPerWidget leftover : Nat) :
    List Cell → Nat → List Cell
  | [], _ => []
  | cell :: rest, idx =>
    if isRowBlock cell.item then
      cell :: expandCells colCount extraPerWidget leftover rest idx
    else
      let extra := extraPerWidget + (if idx < leftover then 1 else 0)
      { cell with span := min colCount (cell.span + extra) } ::
        expandCells colCount extraPerWidget leftover rest (idx + 1)

/-- The body of `packRows`' `flush` closure applied to a non-empty current
row: with `remaining = colCount - used > 0`, either mark every cell
`distributeEqually` (when all expandable cells have span 1 and `remaining`
is less than their count) or distribute `remaining` over the expandable
cells. -/
def flushRow (colCount : Nat) (currentRow : List Cell) (used : Nat) : List Cell :=
  let remaining := colCount - used
  if remaining > 0 then
    let expandableWidgets := currentRow.filter fun cell => !isRowBlock cell.item
    if expandableWidgets.length > 0 then
      if expandableWidgets.all (fun cell => cell.span == 1)
          ∧ remaining < expandableWidgets.length then
        currentRow.map fun cell => { cell with distributeEqually := true }
      else
        expandCells colCount (remaining / expandableWidgets.length)
          (remaining % expandableWidgets.length) currentRow 0
    else currentRow
  else currentRow

/-- `flush()` as a row emitter: nothing is emitted for an empty current row. -/
def flushEmit (colCount : Nat) (currentRow : List Cell) (used : Nat) : List Row :=
  if currentRow.isEmpty then [] else [⟨flushRow colCount currentRow used⟩]

/-- The item loop of `packRows`: a full-span item flushes the current row and
gets its own row with `span: colCount`; an item that would overflow flushes
first; otherwise the item joins the current row. -/
def packRowsGo (colCount : Nat) : List Item → List Cell → Nat → List Row
  | [], currentRow, used => flushEmit colCount currentRow used
  | item :: rest, currentRow, used =>
    let span := itemSpan item colCount
    if span ≥ colCount then
      flushEmit colCount currentRow used
        ++ (⟨[⟨item, colCount, false⟩]⟩ : Row) :: packRowsGo colCount rest [] 0
    else if used + span > colCount then
      flushEmit colCount currentRow used
        ++ packRowsGo colCount rest [⟨item, span, false⟩] span
    else
      packRowsGo colCount rest (currentRow ++ [⟨item, span, false⟩]) (used + span)

/-- `packRows(items, colCount)` (src/script.js:314-395). -/
def packRows (items : List Item) (colCount : Nat) : List Row :=
  packRowsGo colCount items [] 0

/-! The section layout orchestrator, `layoutSection` (src/script.js:397-431). -/

/-- `layoutSection(section, containerWidth)`: resolve the column count,
compose RowBlocks over the section's widget list and pack rows. -/
def layoutSection (sec : Section) (containerWidth : ℚ) : Layout :=
  let colCount := getColCountFromWidth containerWidth
  match sec with
  | .filterGroup _ group =>
    let items := transformRowBlocks (group.widgets.map Item.widget) colCount
    let rows := packRows items colCount
    .filterGroupLayout group colCount rows containerWidth
  | .widgetSection _ _ widgets =>
    let items := transformRowBlocks (widgets.map Item.widget) colCount
    let rows := packRows items colCount
    .widgetLayout colCount rows

/-! The fit-validation oracle, `canWidgetFitInSection` (src/script.js:598-635). -/

/-- The temporary widget appended by `canWidgetFitInSection` for the fit
simulation (`{ id: 'temp', size: widgetSize, ... }`). -/
def syntheticWidget (widgetSize : WSize) : Widget :=
  let config := getWidgetConfig widgetSize
  ⟨"temp", widgetSize, config.displayName, config.minColSpan,
    config.minHeightRem, config.heightMode⟩

/-- The body of the `try` block of `canWidgetFitInSection`: lay out the
section's widgets with and without a synthetic widget of the candidate
size appended and compare row counts.  The result is wrapped in `Except`
to model the fault channel of the surrounding `try`; the simulation itself
is total, so it always returns `.ok`. -/
def fitSimulation (widgets : List Widget) (widgetSize : WSize) (colCount : Nat) :
    Except String Bool :=
  let itemsBefore := transformRowBlocks (widgets.map Item.widget) colCount
  let rowsBefore := packRows itemsBefore colCount
  let rowCountBefore := rowsBefore.length
  let testWidgets := widgets ++ [syntheticWidget widgetSize]
  let itemsAfter := transformRowBlocks (testWidgets.map Item.widget) colCount
  let rowsAfter := packRows itemsAfter colCount
  let rowCountAfter := rowsAfter.length
  .ok (rowCountAfter == rowCountBefore)

/-- The `catch` clause of `canWidgetFitInSection`: a simulation fault is
swallowed and the oracle fails open (`return true`). -/
def oracleRecover : Except String Bool → Bool
  | .ok fits => fits
  | .error _ => true

/-- `canWidgetFitInSection(widgetSize, sectionId)`: `FILTER` never fits; an
unknown section, a filter-group section, a widget section with no widgets
all fit trivially; otherwise the fit simulation decides, failing open on a
fault.  (`this.sections` and the canvas width are ambient state of the
editor, passed here as arguments.) -/
def canWidgetFitInSection (sections : List Section) (containerWidth : ℚ)
    (widgetSize : WSize) (sectionId : String) : Bool :=
  if widgetSize = WSize.FILTER then false
  else
    match sections.find? fun s => s.id == sectionId with
    | none => true
    | some (.filterGroup _ _) => true
    | some (.widgetSection _ _ widgets) =>
      if widgets.isEmpty then true
      else
        let colCount := getColCountFromWidth containerWidth
        oracleRecover (fitSimulation widgets widgetSize colCount)

/-! The drop-target resolver, `getDropTarget` (src/script.js:648-934).  Zone
generation reads live DOM rectangles; the generated zone list is passed to
the resolution phase as data, as is the canvas bounding rectangle. -/

/-- Drop-zone kinds. -/
inductive ZoneType
  | withinSection | withinFilterGroup | betweenSections
deriving DecidableEq, Repr

/-- A drop zone as pushed onto `dropZones`: a rectangle plus insertion
metadata.  `between-sections` zones carry no `sectionId`. -/
structure DropZone where
  type : ZoneType
  sectionId : Option String := none
  position : Nat
  top : ℚ
  bottom : ℚ
  left : ℚ
  right : ℚ
  isRailDropZone : Bool := false
  isInvalid : Bool := false
deriving DecidableEq, Repr

/-- A bounding rectangle (`getBoundingClientRect()`). -/
structure Rect where
  top : ℚ
  bottom : ℚ
  left : ℚ
  right : ℚ
deriving DecidableEq, Repr

/-- The geometric hit test used by both resolution loops:
`x >= zone.left && x <= zone.right && y >= zone.top && y <= zone.bottom`. -/
def zoneContains (zone : DropZone) (x y : ℚ) : Bool :=
  decide (zone.left ≤ x) && decide (x ≤ zone.right)
    && decide (zone.top ≤ y) && decide (y ≤ zone.bottom)

/-- The validity-filtering loop of `getDropTarget` during a panel-drag or
widget-move: `within-section`/`within-filter-group` zones are checked
against the oracle and flagged `isInvalid` when they fail (kept in the
invalid list); `between-sections` zones are always valid.  Returns
(validZones, invalidZones), each in generation order. -/
def partitionZones (sections : List Section) (containerWidth : ℚ)
    (draggedSize : WSize) : List DropZone → List DropZone × List DropZone
  | [] => ([], [])
  | zone :: rest =>
    let res := partitionZones sections containerWidth draggedSize rest
    match zone.type with
    | .betweenSections => (zone :: res.1, res.2)
    | _ =>
      if canWidgetFitInSection sections containerWidth draggedSize
          (zone.sectionId.getD "") then
        (zone :: res.1, res.2)
      else
        (res.1, { zone with isInvalid := true } :: res.2)

/-- `getDropTarget(x, y)`: null outside the canvas rectangle; otherwise
split the generated zones into valid and invalid (only while a drag with a
widget size is in progress) and return the first valid zone containing the
pointer, else the first invalid zone containing it, else null. -/
def getDropTarget (sections : List Section) (containerWidth : ℚ)
    (draggedSize : Option WSize) (canvasRect : Rect) (dropZones : List DropZone)
    (x y : ℚ) : Option DropZone :=
  if x < canvasRect.left ∨ x > canvasRect.right
      ∨ y < canvasRect.top ∨ y > canvasRect.bottom then none
  else
    let zones := match draggedSize with
      | some sz => partitionZones sections containerWidth sz dropZones
      | none => (dropZones, [])
    match zones.1.find? fun zone => zoneContains zone x y with
    | some zone => some zone
    | none => zones.2.find? fun zone => zoneContains zone x y

/-! Derived measures used to state the claims. -/

/-- Sum of the cell spans of a row (`row.cells.reduce((sum, c) => sum + c.span, 0)`). -/
def spanSum (cells : List Cell) : Nat :=
  (cells.map Cell.span).sum

/-- Height contribution of rail members after the first: each is charged the
vertical gap plus its own height. -/
def railGapSum : List Widget → ℚ
  | [] => 0
  | w :: rest => vGapRem + w.minHeightRem + railGapSum rest

/-- Cumulative rail height under the accumulation rule of the composer: the
members' heights plus one vertical gap between consecutive members. -/
def railHeightSum : List Widget → ℚ
  | [] => 0
  | w :: rest => w.minHeightRem + railGapSum rest

/-- The widgets referenced by an item: a RowBlock holds its main widget and
its rail. -/
def flattenItem : Item → List Widget
  | .widget w => [w]
  | .rowblock rb => rb.main :: rb.rail

/-- The multiset of widgets referenced by an item sequence. -/
def widgetMS (items : List Item) : Multiset Widget :=
  ((items.map flattenItem).flatten : List Widget)

/-- The items referenced by a packed row sequence, in row-then-cell order. -/
def rowItems (rows : List Row) : List Item :=
  (rows.map fun row => row.cells.map Cell.item).flatten

/-- The widget list of a section (`section.widgets` or `section.group.widgets`). -/
def sectionWidgets : Section → List Widget
  | .widgetSection _ _ widgets => widgets
  | .filterGroup _ group => group.widgets

/-! Concrete sample data used by witnesses and counterexamples: widgets as
built by `handleDropFromPanel` for sizes S, L, M. -/

/-- A size-S widget (span 1, 16 rem). -/
def sampleS1 : Widget :=
  ⟨"w1", .S, "S", 1, TOKENS_minHeightsRem_S, .stretchRow⟩

/-- A second size-S widget. -/
def sampleS2 : Widget :=
  ⟨"w2", .S, "S", 1, TOKENS_minHeightsRem_S, .stretchRow⟩

/-- A third size-S widget. -/
def sampleS3 : Widget :=
  ⟨"w3", .S, "S", 1, TOKENS_minHeightsRem_S, .stretchRow⟩

/-- A size-L widget (span 3, 32 rem). -/
def sampleL : Widget :=
  ⟨"w4", .L, "L", 3, TOKENS_minHeightsRem_L, .stretchRow⟩

/-- A size-M widget (span 2, 22 rem). -/
def sampleM : Widget :=
  ⟨"m1", .M, "M", 2, TOKENS_minHeightsRem_M, .stretchRow⟩

/-- A one-section store holding a single M widget in section `s1`: appending
an L widget to it forces a second row at four columns. -/
def sampleSections : List Section :=
  [Section.widgetSection "s1" "New Section" [sampleM]]

/-- A within-section zone over section `zz` (no such section exists, so the
oracle accepts it); generated before the other sample zones. -/
def zoneAccepted : DropZone :=
  { type := .withinSection, sectionId := some "zz", position := 0,
    top := 0, bottom := 10, left := 0, right := 10 }

/-- A within-section zone over section `s1`; dragging an L widget over
`sampleSections` makes the oracle reject it, so it is flagged invalid. -/
def zoneRejected : DropZone :=
  { type := .withinSection, sectionId := some "s1", position := 0,
    top := 0, bottom := 10, left := 0, right := 10 }

/-- A between-sections zone overlapping the two sample zones. -/
def zoneBetween : DropZone :=
  { type := .betweenSections, position := 1,
    top := 0, bottom := 10, left := 0, right := 10 }

/-- A canvas rectangle containing the sample zones. -/
def sampleCanvas : Rect :=
  { top := 0, bottom := 100, left := 0, right := 100 }

/-! Claims. -/

/-- Claim C8: the column resolver is monotone in the container width, with
the fixed breakpoint values 1200→4, 900→3, 600→2 and 1 below 600. -/
theorem C8_column_monotonicity : ∀ w1 w2 : ℚ,
    (w1 < w2 → getColCountFromWidth w1 ≤ getColCountFromWidth w2) ∧
    (1200 ≤ w1 → getColCountFromWidth w1 = 4) ∧
    (900 ≤ w1 → w1 < 1200 → getColCountFromWidth w1 = 3) ∧
    (600 ≤ w1 → w1 < 900 → getColCountFromWidth w1 = 2) ∧
    (w1 < 600 → getColCountFromWidth w1 = 1) := by
  intro w1 w2
  refine ⟨?_, ?_, ?_, ?_, ?_⟩ <;> intros <;>
    simp only [getColCountFromWidth, ge_iff_le] <;> split_ifs <;>
    first | rfl | (exfalso; linarith) | norm_num

/-- Witness for C8 at concrete widths. -/
theorem C8_column_monotonicity_witness :
    getColCountFromWidth 500 ≤ getColCountFromWidth 1300 ∧
    getColCountFromWidth 1300 = 4 ∧ getColCountFromWidth 950 = 3 ∧
    getColCountFromWidth 700 = 2 ∧ getColCountFromWidth 500 = 1 :=
  ⟨(C8_column_monotonicity 500 1300).1 (by norm_num),
   (C8_column_monotonicity 1300 0).2.1 (by norm_num),
   (C8_column_monotonicity 950 0).2.2.1 (by norm_num) (by norm_num),
   (C8_column_monotonicity 700 0).2.2.2.1 (by norm_num) (by norm_num),
   (C8_column_monotonicity 500 0).2.2.2.2 (by norm_num)⟩

/-- Claim C1: for a widget section holding at least one widget and a
candidate size other than FILTER, the fit oracle answers true exactly when
appending a synthetic widget of that size leaves the packed row count
unchanged; in particular it answers false whenever appending increases the
row count. -/
theorem C1_oracle_consistency :
    ∀ (sections : List Section) (containerWidth : ℚ) (widgetSize : WSize)
      (sectionId sid title : String) (widgets : List Widget),
      widgetSize ≠ WSize.FILTER →
      sections.find? (fun s => s.id == sectionId)
        = some (.widgetSection sid title widgets) →
      widgets ≠ [] →
      (canWidgetFitInSection sections containerWidth widgetSize sectionId = true ↔
        (packRows
            (transformRowBlocks ((widgets ++ [syntheticWidget widgetSize]).map Item.widget)
              (getColCountFromWidth containerWidth))
            (getColCountFromWidth containerWidth)).length
        = (packRows
            (transformRowBlocks (widgets.map Item.widget)
              (getColCountFromWidth containerWidth))
            (getColCountFromWidth containerWidth)).length) ∧
      ((packRows
            (transformRowBlocks (widgets.map Item.widget)
              (getColCountFromWidth containerWidth))
            (getColCountFromWidth containerWidth)).length
        < (packRows
            (transformRowBlocks ((widgets ++ [syntheticWidget widgetSize]).map Item.widget)
              (getColCountFromWidth containerWidth))
            (getColCountFromWidth containerWidth)).length →
        canWidgetFitInSection sections containerWidth widgetSize sectionId = false) := by
  intro sections containerWidth widgetSize sectionId sid title widgets hsz hfind hne
  have hE : widgets.isEmpty = false := by
    cases widgets with
    | nil => exact absurd rfl hne
    | cons a l => rfl
  rw [canWidgetFitInSection, if_neg hsz, hfind]
  simp only [hE, Bool.false_eq_true, if_false, fitSimulation, oracleRecover]
  constructor
  · exact beq_iff_eq
  · intro hlt
    simp only [beq_eq_false_iff_ne, ne_eq]
    omega

/-- Witness for C1: an S widget still fits beside an M widget at four
columns (row count stays 1), and the oracle indeed answers true. -/
theorem C1_oracle_consistency_witness :
    canWidgetFitInSection sampleSections 1300 WSize.S "s1" = true := by
  have h := (C1_oracle_consistency sampleSections 1300 WSize.S "s1" "s1"
    "New Section" [sampleM] (by decide) (by rfl) (by decide)).1
  apply h.mpr
  norm_num +decide [transformRowBlocks, transformGo, captureRun, canTake,
    effectiveSpan, vGapRem, toleranceRem, maxRailItems, packRows, packRowsGo,
    flushEmit, flushRow, expandCells, itemSpan, isRowBlock, sampleM,
    syntheticWidget, getWidgetConfig, getColCountFromWidth,
    TOKENS_minHeightsRem_M, TOKENS_minHeightsRem_S]

/-- Claim C9: the oracle rejects the FILTER pseudo-size outright, accepts
when the section id is unknown, names a filter-group section or a widget
section with no widgets, and its catch clause recovers any simulation
fault as true (fail-open). -/
theorem C9_oracle_edge_cases :
    (∀ (sections : List Section) (containerWidth : ℚ) (sectionId : String),
      canWidgetFitInSection sections containerWidth WSize.FILTER sectionId = false) ∧
    (∀ (sections : List Section) (containerWidth : ℚ) (widgetSize : WSize)
        (sectionId : String),
      widgetSize ≠ WSize.FILTER →
      sections.find? (fun s => s.id == sectionId) = none →
      canWidgetFitInSection sections containerWidth widgetSize sectionId = true) ∧
    (∀ (sections : List Section) (containerWidth : ℚ) (widgetSize : WSize)
        (sectionId sid : String) (group : FilterGroup),
      widgetSize ≠ WSize.FILTER →
      sections.find? (fun s => s.id == sectionId) = some (.filterGroup sid group) →
      canWidgetFitInSection sections containerWidth widgetSize sectionId = true) ∧
    (∀ (sections : List Section) (containerWidth : ℚ) (widgetSize : WSize)
        (sectionId sid title : String),
      widgetSize ≠ WSize.FILTER →
      sections.find? (fun s => s.id == sectionId) = some (.widgetSection sid title []) →
      canWidgetFitInSection sections containerWidth widgetSize sectionId = true) ∧
    (∀ fault : String, oracleRecover (.error fault) = true) := by
  refine ⟨?_, ?_, ?_, ?_, ?_⟩
  · intro sections containerWidth sectionId
    rw [canWidgetFitInSection, if_pos rfl]
  · intro sections containerWidth widgetSize sectionId hsz hfind
    rw [canWidgetFitInSection, if_neg hsz, hfind]
  · intro sections containerWidth widgetSize sectionId sid group hsz hfind
    rw [canWidgetFitInSection, if_neg hsz, hfind]
  · intro sections containerWidth widgetSize sectionId sid title hsz hfind
    rw [canWidgetFitInSection, if_neg hsz, hfind]
    rfl
  · intro fault
    rfl

/-- Witness for C9 at concrete inputs. -/
theorem C9_oracle_edge_cases_witness :
    canWidgetFitInSection sampleSections 1300 WSize.FILTER "s1" = false ∧
    canWidgetFitInSection sampleSections 1300 WSize.S "nope" = true ∧
    canWidgetFitInSection [Section.filterGroup "f1" ⟨"fg_0", "Filter Container", [], []⟩]
      1300 WSize.S "f1" = true ∧
    canWidgetFitInSection [Section.widgetSection "s9" "T" []] 1300 WSize.L "s9" = true :=
  ⟨C9_oracle_edge_cases.1 sampleSections 1300 "s1",
   C9_oracle_edge_cases.2.1 sampleSections 1300 WSize.S "nope" (by decide) (by rfl),
   C9_oracle_edge_cases.2.2.1 [Section.filterGroup "f1" ⟨"fg_0", "Filter Container", [], []⟩]
     1300 WSize.S "f1" "f1" ⟨"fg_0", "Filter Container", [], []⟩ (by decide) (by rfl),
   C9_oracle_edge_cases.2.2.2.1 [Section.widgetSection "s9" "T" []] 1300 WSize.L
     "s9" "s9" "T" (by decide) (by rfl)⟩

/-- Claim C2 (counterexample): with three S widgets followed by an L widget
at four columns, the composer absorbs only two of the S widgets into the
RowBlock (the third does not fit under the accumulation rule), so the
packer emits two rows, not the single row the claim asserts. -/
theorem C2_scenario_counterexample :
    (packRows (transformRowBlocks
        ([sampleS1, sampleS2, sampleS3, sampleL].map Item.widget) 4) 4).length = 2 ∧
    ¬ (packRows (transformRowBlocks
        ([sampleS1, sampleS2, sampleS3, sampleL].map Item.widget) 4) 4).length = 1 := by
  norm_num +decide [transformRowBlocks, transformGo, captureRun, canTake,
    effectiveSpan, vGapRem, toleranceRem, maxRailItems, packRows, packRowsGo,
    flushEmit, flushRow, expandCells, itemSpan, isRowBlock,
    sampleS1, sampleS2, sampleS3, sampleL,
    TOKENS_minHeightsRem_S, TOKENS_minHeightsRem_L]

/-- Claim C2 (amended): for three S widgets followed by an L widget at four
columns, `transformRowBlocks` produces exactly one RowBlock whose main is
the L widget and whose rail holds the two S widgets that fit within
`L.minHeightRem + 2` under the accumulation rule (all three do not fit);
the remaining S widget stays a plain item, and `packRows` emits two rows,
each of full width: the leftover S widget expanded to span 4, then the
RowBlock at span 4. -/
theorem C2_scenario_amended :
    transformRowBlocks ([sampleS1, sampleS2, sampleS3, sampleL].map Item.widget) 4 =
      [Item.widget sampleS1,
       Item.rowblock ⟨sampleL, [sampleS2, sampleS3], "rb-w4"⟩] ∧
    railHeightSum [sampleS2, sampleS3] ≤ sampleL.minHeightRem + toleranceRem ∧
    ¬ railHeightSum [sampleS1, sampleS2, sampleS3] ≤ sampleL.minHeightRem + toleranceRem ∧
    packRows (transformRowBlocks
        ([sampleS1, sampleS2, sampleS3, sampleL].map Item.widget) 4) 4 =
      [⟨[⟨Item.widget sampleS1, 4, false⟩]⟩,
       ⟨[⟨Item.rowblock ⟨sampleL, [sampleS2, sampleS3], "rb-w4"⟩, 4, false⟩]⟩] := by
  refine ⟨?_, ?_, ?_, ?_⟩ <;>
    norm_num +decide [transformRowBlocks, transformGo, captureRun, canTake,
      effectiveSpan, vGapRem, toleranceRem, maxRailItems, packRows, packRowsGo,
      flushEmit, flushRow, expandCells, itemSpan, isRowBlock,
      railHeightSum, railGapSum,
      sampleS1, sampleS2, sampleS3, sampleL,
      TOKENS_minHeightsRem_S, TOKENS_minHeightsRem_L]

/-! Helper lemmas about the capture scan of the composer. -/

/-- The captured widgets are an initial run of the scanned items: the scan
consumes a head segment and the splice drops exactly that segment. -/
theorem captureRun_decomp (colCount : Nat) (railTarget : ℚ) :
    ∀ (items : List Item) (railHeight : ℚ) (railCount : Nat),
      (captureRun colCount railTarget items railHeight railCount).map Item.widget
        ++ items.drop (captureRun colCount railTarget items railHeight railCount).length
      = items := by
  intro items
  induction items with
  | nil => intro h c; simp [captureRun]
  | cons it rest ih =>
    intro h c
    match it with
    | .rowblock rb => simp [captureRun]
    | .widget pw =>
      by_cases h1 : effectiveSpan pw colCount ≠ 1
      · simp [captureRun, h1]
      · by_cases h2 : ¬ canTake colCount railTarget h c pw
        · simp [captureRun, h1, h2]
        · simp only [captureRun, if_neg h1, if_neg h2, List.map_cons, List.length_cons,
            List.drop_succ_cons, List.cons_append, List.cons.injEq, true_and]
          exact ih _ _

/-- Every captured widget has effective span 1. -/
theorem captureRun_span1 (colCount : Nat) (railTarget : ℚ) :
    ∀ (items : List Item) (railHeight : ℚ) (railCount : Nat),
      ∀ x ∈ captureRun colCount railTarget items railHeight railCount,
        effectiveSpan x colCount = 1 := by
  intro items
  induction items with
  | nil => intro h c x hx; simp [captureRun] at hx
  | cons it rest ih =>
    intro h c x hx
    match it with
    | .rowblock rb => simp [captureRun] at hx
    | .widget pw =>
      by_cases h1 : effectiveSpan pw colCount ≠ 1
      · simp [captureRun, h1] at hx
      · by_cases h2 : ¬ canTake colCount railTarget h c pw
        · simp [captureRun, h1, h2] at hx
        · simp only [captureRun, if_neg h1, if_neg h2, List.mem_cons] at hx
          rcases hx with rfl | hx
          · omega
          · exact ih _ _ x hx

/-- What a successful `canTake` check guarantees. -/
theorem canTake_true {colCount : Nat} {railTarget railHeight : ℚ} {railCount : Nat}
    {pw : Widget} (hct : canTake colCount railTarget railHeight railCount pw = true) :
    railCount < maxRailItems ∧ effectiveSpan pw colCount = 1 ∧
    railHeight + (if railCount > 0 then vGapRem else 0) + pw.minHeightRem ≤ railTarget := by
  unfold canTake at hct
  split_ifs at hct with h1 h2 h3
  · refine ⟨by omega, by omega, ?_⟩
    rw [if_pos h3]
    exact of_decide_eq_true hct
  · refine ⟨by omega, by omega, ?_⟩
    rw [if_neg h3]
    exact of_decide_eq_true hct

/-- A capture scan started with `railCount` items already accepted captures
at most `maxRailItems - railCount` more. -/
theorem captureRun_length (colCount : Nat) (railTarget : ℚ) :
    ∀ (items : List Item) (railHeight : ℚ) (railCount : Nat),
      (captureRun colCount railTarget items railHeight railCount).length
        ≤ maxRailItems - railCount := by
  intro items
  induction items with
  | nil => intro h c; simp [captureRun]
  | cons it rest ih =>
    intro h c
    match it with
    | .rowblock rb => simp [captureRun]
    | .widget pw =>
      by_cases h1 : effectiveSpan pw colCount ≠ 1
      · simp [captureRun, h1]
      · by_cases h2 : ¬ canTake colCount railTarget h c pw
        · simp [captureRun, h1, h2]
        · rw [not_not] at h2
          have hc := (canTake_true h2).1
          simp only [captureRun, if_neg h1, if_neg (not_not_intro h2), List.length_cons]
          have := ih (h + (if c > 0 then vGapRem else 0) + pw.minHeightRem) (c + 1)
          omega

/-- A capture scan resumed after at least one accepted item keeps the total
accumulated height (every new item charged a gap) within the target. -/
theorem captureRun_gap_height (colCount : Nat) (railTarget : ℚ) :
    ∀ (items : List Item) (railHeight : ℚ) (railCount : Nat), 1 ≤ railCount →
      captureRun colCount railTarget items railHeight railCount ≠ [] →
      railHeight + railGapSum (captureRun colCount railTarget items railHeight railCount)
        ≤ railTarget := by
  intro items
  induction items with
  | nil => intro h c hc hne; simp [captureRun] at hne
  | cons it rest ih =>
    intro h c hc hne
    match it with
    | .rowblock rb => simp [captureRun] at hne
    | .widget pw =>
      by_cases h1 : effectiveSpan pw colCount ≠ 1
      · simp [captureRun, h1] at hne
      · by_cases h2 : ¬ canTake colCount railTarget h c pw
        · simp [captureRun, h1, h2] at hne
        · rw [not_not] at h2
          have hbound := (canTake_true h2).2.2
          simp only [captureRun, if_neg h1, if_neg (not_not_intro h2)]
          simp only [railGapSum]
          rw [if_pos (by omega : c > 0)] at hbound ⊢
          by_cases hrec : captureRun colCount railTarget rest
              (h + vGapRem + pw.minHeightRem) (c + 1) = []
          · rw [hrec]
            simp only [railGapSum]
            linarith
          · have := ih (h + vGapRem + pw.minHeightRem) (c + 1) (by omega) hrec
            linarith

/-- A non-empty capture scan started fresh yields a rail whose cumulative
height under the accumulation rule stays within the target. -/
theorem captureRun_railHeight (colCount : Nat) (railTarget : ℚ) :
    ∀ (items : List Item),
      captureRun colCount railTarget items 0 0 ≠ [] →
      railHeightSum (captureRun colCount railTarget items 0 0) ≤ railTarget := by
  intro items hne
  match items with
  | [] => simp [captureRun] at hne
  | .rowblock rb :: rest => simp [captureRun] at hne
  | .widget pw :: rest =>
    by_cases h1 : effectiveSpan pw colCount ≠ 1
    · simp [captureRun, h1] at hne
    · by_cases h2 : ¬ canTake colCount railTarget 0 0 pw
      · simp [captureRun, h1, h2] at hne
      · rw [not_not] at h2
        have hbound := (canTake_true h2).2.2
        rw [if_neg (by omega)] at hbound
        simp only [captureRun, if_neg h1, if_neg (not_not_intro h2)]
        simp only [railHeightSum]
        rw [if_neg (by omega : ¬ (0:Nat) > 0)]
        by_cases hrec : captureRun colCount railTarget rest
            (0 + 0 + pw.minHeightRem) (0 + 1) = []
        · rw [hrec]
          simp only [railGapSum]
          linarith
        · have := captureRun_gap_height colCount railTarget rest
            (0 + 0 + pw.minHeightRem) (0 + 1) (by omega) hrec
          linarith

/-- Closed form of `railGapSum`. -/
theorem railGapSum_closed : ∀ l : List Widget,
    railGapSum l = (l.map Widget.minHeightRem).sum + vGapRem * l.length := by
  intro l
  induction l with
  | nil => simp [railGapSum]
  | cons w rest ih =>
    simp only [railGapSum, ih, List.map_cons, List.sum_cons, List.length_cons]
    push_cast
    ring

/-- Closed form of `railHeightSum`: the members' heights plus one gap per
pair of consecutive members. -/
theorem railHeightSum_closed : ∀ l : List Widget,
    railHeightSum l
      = (l.map Widget.minHeightRem).sum + vGapRem * ((l.length - 1 : ℕ) : ℚ) := by
  intro l
  match l with
  | [] => simp [railHeightSum]
  | w :: rest =>
    simp only [railHeightSum, railGapSum_closed, List.map_cons, List.sum_cons,
      List.length_cons, Nat.add_sub_cancel]
    ring

/-- The cumulative rail height does not depend on the order of the rail. -/
theorem railHeightSum_reverse (l : List Widget) :
    railHeightSum l.reverse = railHeightSum l := by
  simp [railHeightSum_closed, List.map_reverse, List.sum_reverse]

/-- Claim C3: at four columns, a span-3 seed first scans backward over the
immediately preceding items (the reversed prefix `acc`); the scan captures
only span-1 widgets forming a head segment of that prefix.  When it
captures at least one item the seed becomes a RowBlock whose rail is
exactly the reversed backward captures and the forward items are left
untouched; only when it captures nothing is the forward scan tried, and a
seed with no captures at all stays a plain widget. -/
theorem C3_backward_priority :
    ∀ (acc rest : List Item) (w : Widget),
      effectiveSpan w 4 = 3 →
      ((captureRun 4 (w.minHeightRem + toleranceRem) acc 0 0).map Item.widget
          ++ acc.drop (captureRun 4 (w.minHeightRem + toleranceRem) acc 0 0).length
        = acc ∧
       ∀ x ∈ captureRun 4 (w.minHeightRem + toleranceRem) acc 0 0,
         effectiveSpan x 4 = 1) ∧
      (captureRun 4 (w.minHeightRem + toleranceRem) acc 0 0 ≠ [] →
        transformGo 4 acc (Item.widget w :: rest)
          = transformGo 4
              (Item.rowblock
                  ⟨w, (captureRun 4 (w.minHeightRem + toleranceRem) acc 0 0).reverse,
                    "rb-" ++ w.id⟩
                :: acc.drop (captureRun 4 (w.minHeightRem + toleranceRem) acc 0 0).length)
              rest) ∧
      (captureRun 4 (w.minHeightRem + toleranceRem) acc 0 0 = [] →
        (captureRun 4 (w.minHeightRem + toleranceRem) rest 0 0 ≠ [] →
          transformGo 4 acc (Item.widget w :: rest)
            = transformGo 4
                (Item.rowblock
                    ⟨w, captureRun 4 (w.minHeightRem + toleranceRem) rest 0 0,
                      "rb-" ++ w.id⟩ :: acc)
                (rest.drop
                  (captureRun 4 (w.minHeightRem + toleranceRem) rest 0 0).length)) ∧
        (captureRun 4 (w.minHeightRem + toleranceRem) rest 0 0 = [] →
          transformGo 4 acc (Item.widget w :: rest)
            = transformGo 4 (Item.widget w :: acc) rest)) := by
  intro acc rest w h3
  refine ⟨⟨captureRun_decomp 4 _ acc 0 0, captureRun_span1 4 _ acc 0 0⟩, ?_, ?_⟩
  · intro hb
    rw [transformGo]
    simp only [h3, ne_eq, not_true_eq_false, if_false, hb, if_true, not_false_eq_true]
  · intro hb
    constructor
    · intro hf
      rw [transformGo]
      simp only [h3, ne_eq, not_true_eq_false, if_false, hb, not_false_eq_true,
        hf, if_true]
    · intro hf
      rw [transformGo]
      simp only [h3, ne_eq, not_true_eq_false, if_false, hb, hf]

/-- Witness for C3: a single preceding S widget is captured backward by an
L seed, yielding a RowBlock with that S widget as its rail. -/
theorem C3_backward_priority_witness :
    transformGo 4 [Item.widget sampleS2] [Item.widget sampleL]
      = [Item.rowblock ⟨sampleL, [sampleS2], "rb-w4"⟩] := by
  have h := (C3_backward_priority [Item.widget sampleS2] [] sampleL (by decide)).2.1
    (by norm_num +decide [captureRun, canTake, effectiveSpan, vGapRem, toleranceRem,
      maxRailItems, sampleS2, sampleL, TOKENS_minHeightsRem_S, TOKENS_minHeightsRem_L])
  rw [h, transformGo]
  norm_num +decide [captureRun, canTake, effectiveSpan, vGapRem, toleranceRem,
    maxRailItems, sampleS2, sampleL, TOKENS_minHeightsRem_S, TOKENS_minHeightsRem_L]


/-- Length preservation of the expansion walk. -/
theorem expandCells_length (k ep lo : Nat) :
    ∀ (cells : List Cell) (idx : Nat),
      (expandCells k ep lo cells idx).length = cells.length := by
  intro cells
  induction cells with
  | nil => intro idx; simp [expandCells]
  | cons c cs ih =>
    intro idx
    by_cases hrb : isRowBlock c.item
    · simp [expandCells, hrb, ih]
    · simp [expandCells, hrb, ih]

/-- Positional characterization of the expansion walk: RowBlock cells are
untouched; the m-th expandable cell (counting from `idx`) gains
`extraPerWidget` plus one more when `idx + m < leftover`, capped at the
column count. -/
theorem expandCells_getElem (k ep lo : Nat) :
    ∀ (cells : List Cell) (idx j : Nat) (cell : Cell),
      cells[j]? = some cell →
      (expandCells k ep lo cells idx)[j]?
        = some (if isRowBlock cell.item then cell
            else { cell with span := min k (cell.span + (ep +
              (if idx + ((cells.take j).filter fun c => !isRowBlock c.item).length < lo
               then 1 else 0))) }) := by
  intro cells
  induction cells with
  | nil => intro idx j cell h; simp at h
  | cons c cs ih =>
    intro idx j cell h
    match j with
    | 0 =>
      obtain rfl : c = cell := by simpa using h
      by_cases hrb : isRowBlock c.item
      · simp [expandCells, hrb]
      · simp [expandCells, hrb]
    | j' + 1 =>
      have h' : cs[j']? = some cell := by simpa using h
      by_cases hrb : isRowBlock c.item
      · have hf : List.filter (fun x => !isRowBlock x.item) (c :: cs.take j')
            = List.filter (fun x => !isRowBlock x.item) (cs.take j') := by
          simp [List.filter_cons, hrb]
        simp only [expandCells, hrb, if_true, List.getElem?_cons_succ,
          List.take_succ_cons, hf]
        exact ih idx j' cell h'
      · have hf : List.filter (fun x => !isRowBlock x.item) (c :: cs.take j')
            = c :: List.filter (fun x => !isRowBlock x.item) (cs.take j') := by
          simp [List.filter_cons, hrb]
        simp only [expandCells, hrb, Bool.false_eq_true, if_false,
          List.getElem?_cons_succ, List.take_succ_cons, hf, List.length_cons]
        rw [ih (idx + 1) j' cell h']
        rw [show idx + 1 + (List.filter (fun x => !isRowBlock x.item) (cs.take j')).length
              = idx + ((List.filter (fun x => !isRowBlock x.item) (cs.take j')).length + 1)
            from by omega]


/-- Claim C4: when a non-empty row flushes with remaining space and every
expandable (non-RowBlock) cell has span 1 while the remaining columns are
fewer than the expandable cells, no span changes and every cell is marked
`distributeEqually`; in every other flush with remaining space and at
least one expandable cell, the remaining columns are distributed as
`floor(remaining/count)` per expandable cell, the first `remaining mod
count` expandable cells (in row order) getting one more, capped at the
column count, and RowBlock cells are left untouched. -/
theorem C4_flush_distribution :
    ∀ (colCount : Nat) (currentRow : List Cell) (used : Nat),
      0 < colCount - used →
      currentRow.filter (fun cell => !isRowBlock cell.item) ≠ [] →
      ((((currentRow.filter fun cell => !isRowBlock cell.item).all
            fun cell => cell.span == 1) = true →
        colCount - used < (currentRow.filter fun cell => !isRowBlock cell.item).length →
        flushRow colCount currentRow used
          = currentRow.map fun cell => { cell with distributeEqually := true }) ∧
      (¬ ((((currentRow.filter fun cell => !isRowBlock cell.item).all
              fun cell => cell.span == 1) = true)
            ∧ colCount - used
                < (currentRow.filter fun cell => !isRowBlock cell.item).length) →
        (flushRow colCount currentRow used).length = currentRow.length ∧
        ∀ (j : Nat) (cell : Cell), currentRow[j]? = some cell →
          (flushRow colCount currentRow used)[j]?
            = some (if isRowBlock cell.item then cell
                else { cell with span := min colCount (cell.span
                  + ((colCount - used)
                        / (currentRow.filter fun c => !isRowBlock c.item).length
                    + (if ((currentRow.take j).filter fun c => !isRowBlock c.item).length
                          < (colCount - used)
                              % (currentRow.filter fun c => !isRowBlock c.item).length
                       then 1 else 0))) }))) := by
  intro k cur used h0 hne
  have hlen : 0 < (cur.filter fun cell => !isRowBlock cell.item).length :=
    List.length_pos.mpr hne
  constructor
  · intro hall hless
    simp only [flushRow]
    rw [if_pos h0, if_pos hlen, if_pos ⟨hall, hless⟩]
  · intro hnot
    simp only [flushRow]
    rw [if_pos h0, if_pos hlen, if_neg hnot]
    refine ⟨expandCells_length _ _ _ cur 0, ?_⟩
    intro j cell hj
    have h := expandCells_getElem k
      ((k - used) / (cur.filter fun cell => !isRowBlock cell.item).length)
      ((k - used) % (cur.filter fun cell => !isRowBlock cell.item).length)
      cur 0 j cell hj
    simpa using h

/-- Witness for C4: a lone span-3 cell in a 4-column row absorbs the single
remaining column. -/
theorem C4_flush_distribution_witness :
    (flushRow 4 [⟨Item.widget sampleL, 3, false⟩] 3)[0]?
      = some ⟨Item.widget sampleL, 4, false⟩ := by
  have h := ((C4_flush_distribution 4 [⟨Item.widget sampleL, 3, false⟩] 3
      (by norm_num) (by decide)).2 (by decide)).2 0 ⟨Item.widget sampleL, 3, false⟩ rfl
  rw [h]
  decide


/-- A cell's span is at most the span sum of its row. -/
theorem span_le_spanSum : ∀ (cells : List Cell), ∀ c ∈ cells, c.span ≤ spanSum cells := by
  intro cells c hc
  exact List.single_le_sum (by simp) _ (List.mem_map_of_mem Cell.span hc)

/-- Span sum of the expansion walk when no cell is a RowBlock and the cap
never bites: the distributed extras add up exactly. -/
theorem expandCells_sum (k ep lo : Nat) :
    ∀ (cells : List Cell) (idx : Nat),
      (∀ c ∈ cells, isRowBlock c.item = false) →
      (∀ c ∈ cells, c.span + ep ≤ k) →
      (0 < lo → ∀ c ∈ cells, c.span + ep + 1 ≤ k) →
      spanSum (expandCells k ep lo cells idx)
        = spanSum cells + cells.length * ep
            + (min lo (idx + cells.length) - min lo idx) := by
  intro cells
  induction cells with
  | nil => intro idx _ _ _; simp [expandCells, spanSum]
  | cons c cs ih =>
    intro idx hrb hcap hcap1
    have hc : isRowBlock c.item = false := hrb c (by simp)
    simp only [expandCells, hc, Bool.false_eq_true, if_false]
    simp only [spanSum, List.map_cons, List.sum_cons, List.length_cons] at *
    rw [ih (idx + 1) (fun x hx => hrb x (by simp [hx]))
      (fun x hx => hcap x (by simp [hx])) (fun hlo x hx => hcap1 hlo x (by simp [hx]))]
    have hnc : min k (c.span + (ep + (if idx < lo then 1 else 0)))
        = c.span + (ep + (if idx < lo then 1 else 0)) := by
      by_cases hi : idx < lo
      · have := hcap1 (by omega) c (by simp)
        rw [if_pos hi]
        omega
      · have := hcap c (by simp)
        rw [if_neg hi]
        omega
    rw [hnc, Nat.succ_mul]
    by_cases hi : idx < lo <;> simp [hi] <;> omega

/-- A flushed non-empty row of expandable cells either carries the
`distributeEqually` mark or has spans summing to the column count. -/
theorem flushRow_sum (k : Nat) (cur : List Cell) (used : Nat)
    (hne : cur ≠ []) (hsum : used = spanSum cur) (hle : used ≤ k)
    (hrb : ∀ c ∈ cur, isRowBlock c.item = false) :
    (∃ c ∈ flushRow k cur used, c.distributeEqually = true) ∨
    spanSum (flushRow k cur used) = k := by
  by_cases h0 : 0 < k - used
  swap
  · right
    simp only [flushRow]
    rw [if_neg h0]
    omega
  · have hfilter : cur.filter (fun cell => !isRowBlock cell.item) = cur := by
      rw [List.filter_eq_self]
      intro a ha
      simp [hrb a ha]
    have hlen : 0 < (cur.filter fun cell => !isRowBlock cell.item).length := by
      rw [hfilter]
      exact List.length_pos.mpr hne
    by_cases htie : ((cur.filter fun cell => !isRowBlock cell.item).all
        fun cell => cell.span == 1) = true
        ∧ k - used < (cur.filter fun cell => !isRowBlock cell.item).length
    · left
      simp only [flushRow]
      rw [if_pos h0, if_pos hlen, if_pos htie]
      obtain ⟨c, hc⟩ := List.exists_mem_of_ne_nil cur hne
      exact ⟨{ c with distributeEqually := true }, List.mem_map_of_mem _ hc, rfl⟩
    · right
      simp only [flushRow]
      rw [if_pos h0, if_pos hlen, if_neg htie, hfilter]
      have hdivle : (k - used) / cur.length ≤ k - used := Nat.div_le_self _ _
      have hsum2 := expandCells_sum k ((k - used) / cur.length) ((k - used) % cur.length)
        cur 0 hrb
        (by
          intro c hc
          have := span_le_spanSum cur c hc
          omega)
        (by
          intro hlo c hc
          have := span_le_spanSum cur c hc
          have hlenpos : 0 < cur.length := List.length_pos.mpr hne
          have h2 : 1 < cur.length := by
            by_contra hle1
            have : cur.length = 1 := by omega
            rw [this] at hlo
            omega
          have : (k - used) / cur.length < k - used := Nat.div_lt_self h0 h2
          omega)
      rw [hsum2]
      have hmod : (k - used) % cur.length < cur.length :=
        Nat.mod_lt _ (List.length_pos.mpr hne)
      have hdm := Nat.div_add_mod (k - used) cur.length
      simp only [Nat.zero_add]
      generalize hp : cur.length * ((k - used) / cur.length) = p at hdm ⊢
      omega


/-- Rows emitted by `flush` satisfy the saturation property under the
packer's loop invariant. -/
theorem flushEmit_saturation (k : Nat) (cur : List Cell) (used : Nat)
    (hsum : used = spanSum cur) (hle : used ≤ k)
    (hrb : ∀ c ∈ cur, isRowBlock c.item = false) :
    ∀ row ∈ flushEmit k cur used,
      (∀ c ∈ row.cells, c.distributeEqually = false) → spanSum row.cells = k := by
  intro row hrow hde
  simp only [flushEmit] at hrow
  by_cases hemp : cur.isEmpty
  · simp [hemp] at hrow
  · rw [if_neg hemp] at hrow
    rcases List.mem_singleton.mp hrow with rfl
    have hne : cur ≠ [] := by
      cases cur
      · simp at hemp
      · simp
    rcases flushRow_sum k cur used hne hsum hle hrb with ⟨c, hc, hcd⟩ | h
    · exact absurd (hde c hc) (by simp [hcd])
    · exact h

/-- Every row produced by the packer's loop, none of whose cells carries the
`distributeEqually` mark, has spans summing to the column count, given the
loop invariant on the current row. -/
theorem packRowsGo_saturation (k : Nat) :
    ∀ (items : List Item) (cur : List Cell) (used : Nat),
      1 ≤ k → used = spanSum cur → used ≤ k →
      (∀ c ∈ cur, isRowBlock c.item = false) →
      ∀ row ∈ packRowsGo k items cur used,
        (∀ c ∈ row.cells, c.distributeEqually = false) → spanSum row.cells = k := by
  intro items
  induction items with
  | nil =>
    intro cur used hk hsum hle hrb row hrow hde
    exact flushEmit_saturation k cur used hsum hle hrb row hrow hde
  | cons item rest ih =>
    intro cur used hk hsum hle hrb row hrow hde
    simp only [packRowsGo] at hrow
    by_cases hfull : itemSpan item k ≥ k
    · rw [if_pos hfull] at hrow
      rw [List.mem_append] at hrow
      rcases hrow with hrow | hrow
      · exact flushEmit_saturation k cur used hsum hle hrb row hrow hde
      · rcases List.mem_cons.mp hrow with rfl | hrow
        · simp [spanSum]
        · exact ih [] 0 hk (by simp [spanSum]) (by omega) (by simp) row hrow hde
    · rw [if_neg hfull] at hrow
      have hwb : isRowBlock item = false := by
        cases item with
        | widget w => rfl
        | rowblock rb =>
          simp only [itemSpan] at hfull
          exact absurd (le_refl k) hfull
      by_cases hov : used + itemSpan item k > k
      · rw [if_pos hov] at hrow
        rw [List.mem_append] at hrow
        rcases hrow with hrow | hrow
        · exact flushEmit_saturation k cur used hsum hle hrb row hrow hde
        · refine ih [⟨item, itemSpan item k, false⟩] (itemSpan item k) hk
            (by simp [spanSum]) (by omega) ?_ row hrow hde
          intro c hc
          rcases List.mem_singleton.mp hc with rfl
          exact hwb
      · rw [if_neg hov] at hrow
        refine ih (cur ++ [⟨item, itemSpan item k, false⟩]) (used + itemSpan item k) hk
          ?_ (by omega) ?_ row hrow hde
        · simp [spanSum, hsum]
        · intro c hc
          rcases List.mem_append.mp hc with hc | hc
          · exact hrb c hc
          · rcases List.mem_singleton.mp hc with rfl
            exact hwb

/-- Claim C5: for any item sequence and positive column count, every packed
row with no `distributeEqually` cell either has spans summing exactly to
the column count, or is a single full-span item alone in its row (the
former in fact always holds). -/
theorem C5_row_saturation :
    ∀ (items : List Item) (colCount : Nat), 1 ≤ colCount →
      ∀ row ∈ packRows items colCount,
        (∀ c ∈ row.cells, c.distributeEqually = false) →
        spanSum row.cells = colCount ∨
        (row.cells.length = 1 ∧ ∃ c ∈ row.cells, colCount ≤ itemSpan c.item colCount) := by
  intro items k hk row hrow hde
  exact Or.inl (packRowsGo_saturation k items [] 0 hk (by simp [spanSum]) (by omega)
    (by simp) row hrow hde)

/-- Witness for C5: a lone S widget at four columns is expanded to a
saturated single-cell row. -/
theorem C5_row_saturation_witness :
    spanSum (Row.mk [⟨Item.widget sampleS1, 4, false⟩]).cells = 4 ∨
    ((Row.mk [⟨Item.widget sampleS1, 4, false⟩]).cells.length = 1 ∧
      ∃ c ∈ (Row.mk [⟨Item.widget sampleS1, 4, false⟩]).cells,
        4 ≤ itemSpan c.item 4) := by
  refine C5_row_saturation [Item.widget sampleS1] 4 (by norm_num)
    (Row.mk [⟨Item.widget sampleS1, 4, false⟩]) ?_ ?_
  · norm_num +decide [packRows, packRowsGo, flushEmit, flushRow, expandCells,
      itemSpan, isRowBlock, effectiveSpan, sampleS1, TOKENS_minHeightsRem_S]
  · decide


/-- Loop invariant of the composer: if every RowBlock already present (in
the scanned prefix or the remaining items) has a rail of at most
`maxRailItems` span-1 widgets within the height budget, so does every
RowBlock in the loop's output. -/
theorem transformGo_rowblocks (colCount : Nat) :
    ∀ (n : Nat) (rest acc : List Item), rest.length ≤ n →
      (∀ it ∈ acc, ∀ rb : RowBlockData, it = Item.rowblock rb →
        rb.rail.length ≤ maxRailItems ∧
        (∀ x ∈ rb.rail, effectiveSpan x colCount = 1) ∧
        railHeightSum rb.rail ≤ rb.main.minHeightRem + toleranceRem) →
      (∀ it ∈ rest, ∀ rb : RowBlockData, it = Item.rowblock rb →
        rb.rail.length ≤ maxRailItems ∧
        (∀ x ∈ rb.rail, effectiveSpan x colCount = 1) ∧
        railHeightSum rb.rail ≤ rb.main.minHeightRem + toleranceRem) →
      ∀ it ∈ transformGo colCount acc rest, ∀ rb : RowBlockData,
        it = Item.rowblock rb →
        rb.rail.length ≤ maxRailItems ∧
        (∀ x ∈ rb.rail, effectiveSpan x colCount = 1) ∧
        railHeightSum rb.rail ≤ rb.main.minHeightRem + toleranceRem := by
  intro n
  induction n with
  | zero =>
    intro rest acc hlen hacc hrest
    have : rest = [] := List.length_eq_zero.mp (Nat.le_zero.mp hlen)
    subst this
    rw [transformGo]
    intro it hit
    exact hacc it (List.mem_reverse.mp hit)
  | succ n ih =>
    intro rest acc hlen hacc hrest
    match rest with
    | [] =>
      rw [transformGo]
      intro it hit
      exact hacc it (List.mem_reverse.mp hit)
    | cur :: rest' =>
      simp only [List.length_cons] at hlen
      have hrest' : ∀ it ∈ rest', ∀ rb : RowBlockData, it = Item.rowblock rb →
          rb.rail.length ≤ maxRailItems ∧
          (∀ x ∈ rb.rail, effectiveSpan x colCount = 1) ∧
          railHeightSum rb.rail ≤ rb.main.minHeightRem + toleranceRem :=
        fun it hit => hrest it (List.mem_cons_of_mem _ hit)
      match cur with
      | .rowblock rb0 =>
        rw [transformGo]
        refine ih rest' (Item.rowblock rb0 :: acc) (by omega) ?_ hrest'
        intro it hit
        rcases List.mem_cons.mp hit with rfl | hit
        · exact hrest _ (List.mem_cons_self _ _)
        · exact hacc it hit
      | .widget w =>
        by_cases h3 : effectiveSpan w colCount ≠ 3
        · rw [transformGo]
          simp only [if_pos h3]
          refine ih rest' (Item.widget w :: acc) (by omega) ?_ hrest'
          intro it hit
          rcases List.mem_cons.mp hit with rfl | hit
          · intro rb h; cases h
          · exact hacc it hit
        · rw [transformGo]
          simp only [if_neg h3]
          by_cases hb : captureRun colCount (w.minHeightRem + toleranceRem) acc 0 0 ≠ []
          · simp only [if_pos hb]
            refine ih rest'
              (Item.rowblock ⟨w, (captureRun colCount (w.minHeightRem + toleranceRem) acc 0 0).reverse,
                  "rb-" ++ w.id⟩
                :: acc.drop (captureRun colCount (w.minHeightRem + toleranceRem) acc 0 0).length)
              (by omega) ?_ hrest'
            intro it hit
            rcases List.mem_cons.mp hit with rfl | hit
            · intro rb h
              cases h
              refine ⟨?_, ?_, ?_⟩
              · have := captureRun_length colCount (w.minHeightRem + toleranceRem) acc 0 0
                simp only [List.length_reverse]
                omega
              · intro x hx
                exact captureRun_span1 colCount (w.minHeightRem + toleranceRem) acc 0 0 x
                  (List.mem_reverse.mp hx)
              · rw [railHeightSum_reverse]
                exact captureRun_railHeight colCount (w.minHeightRem + toleranceRem) acc hb
            · exact hacc it (List.mem_of_mem_drop hit)
          · simp only [if_neg hb]
            by_cases hf : captureRun colCount (w.minHeightRem + toleranceRem) rest' 0 0 ≠ []
            · simp only [if_pos hf]
              refine ih
                (rest'.drop (captureRun colCount (w.minHeightRem + toleranceRem) rest' 0 0).length)
                (Item.rowblock ⟨w, captureRun colCount (w.minHeightRem + toleranceRem) rest' 0 0,
                    "rb-" ++ w.id⟩ :: acc)
                (by
                  have := List.length_drop
                    (captureRun colCount (w.minHeightRem + toleranceRem) rest' 0 0).length rest'
                  omega)
                ?_ ?_
              · intro it hit
                rcases List.mem_cons.mp hit with rfl | hit
                · intro rb h
                  cases h
                  refine ⟨?_, ?_, ?_⟩
                  · have := captureRun_length colCount (w.minHeightRem + toleranceRem) rest' 0 0
                    show (captureRun colCount (w.minHeightRem + toleranceRem) rest' 0 0).length
                      ≤ maxRailItems
                    omega
                  · intro x hx
                    exact captureRun_span1 colCount (w.minHeightRem + toleranceRem) rest' 0 0 x hx
                  · exact captureRun_railHeight colCount (w.minHeightRem + toleranceRem) rest' hf
                · exact hacc it hit
              · intro it hit
                exact hrest' it (List.mem_of_mem_drop hit)
            · simp only [if_neg hf]
              refine ih rest' (Item.widget w :: acc) (by omega) ?_ hrest'
              intro it hit
              rcases List.mem_cons.mp hit with rfl | hit
              · intro rb h; cases h
              · exact hacc it hit


/-- Claim C6: outside the 4-column breakpoint `transformRowBlocks` returns
its input unchanged (so RowBlocks exist only at four columns), and every
RowBlock in the output over a widget-only input has at most `maxRailItems`
rail members, each of effective span 1, with cumulative rail height (a
0.75 rem gap charged between accepted items) within
`main.minHeightRem + toleranceRem`. -/
theorem C6_rowblock_containment :
    (∀ (items : List Item) (colCount : Nat), colCount ≠ 4 →
      transformRowBlocks items colCount = items) ∧
    (∀ (widgets : List Widget),
      ∀ it ∈ transformRowBlocks (widgets.map Item.widget) 4,
        ∀ rb : RowBlockData, it = Item.rowblock rb →
          rb.rail.length ≤ maxRailItems ∧
          (∀ x ∈ rb.rail, effectiveSpan x 4 = 1) ∧
          railHeightSum rb.rail ≤ rb.main.minHeightRem + toleranceRem) := by
  constructor
  · intro items colCount hc
    simp [transformRowBlocks, hc]
  · intro widgets it hit rb hrb
    have hit' : it ∈ transformGo 4 [] (widgets.map Item.widget) := by
      simpa [transformRowBlocks] using hit
    refine transformGo_rowblocks 4 (widgets.map Item.widget).length
      (widgets.map Item.widget) [] le_rfl (by simp) ?_ it hit' rb hrb
    intro it2 hit2 rb2 h2
    obtain ⟨x, _, rfl⟩ := List.mem_map.mp hit2
    cases h2

/-- Witness for C6: the RowBlock produced from `[S, S, S, L]` satisfies the
containment bounds. -/
theorem C6_rowblock_containment_witness :
    ([sampleS2, sampleS3] : List Widget).length ≤ maxRailItems ∧
    (∀ x ∈ ([sampleS2, sampleS3] : List Widget), effectiveSpan x 4 = 1) ∧
    railHeightSum [sampleS2, sampleS3] ≤ sampleL.minHeightRem + toleranceRem := by
  refine C6_rowblock_containment.2 [sampleS1, sampleS2, sampleS3, sampleL]
    (Item.rowblock ⟨sampleL, [sampleS2, sampleS3], "rb-w4"⟩) ?_
    ⟨sampleL, [sampleS2, sampleS3], "rb-w4"⟩ rfl
  norm_num +decide [transformRowBlocks, transformGo, captureRun, canTake,
    effectiveSpan, vGapRem, toleranceRem, maxRailItems,
    sampleS1, sampleS2, sampleS3, sampleL,
    TOKENS_minHeightsRem_S, TOKENS_minHeightsRem_L]


/-- `widgetMS` of the empty sequence. -/
theorem widgetMS_nil : widgetMS [] = 0 := rfl

/-- `widgetMS` of a cons. -/
theorem widgetMS_cons (it : Item) (l : List Item) :
    widgetMS (it :: l) = ↑(flattenItem it) + widgetMS l := by
  simp [widgetMS]

/-- `widgetMS` of an append. -/
theorem widgetMS_append (l1 l2 : List Item) :
    widgetMS (l1 ++ l2) = widgetMS l1 + widgetMS l2 := by
  simp [widgetMS]

/-- `widgetMS` ignores order. -/
theorem widgetMS_reverse (l : List Item) : widgetMS l.reverse = widgetMS l := by
  induction l with
  | nil => rfl
  | cons it rest ih =>
    rw [List.reverse_cons, widgetMS_append, widgetMS_cons, widgetMS_cons, widgetMS_nil, ih]
    abel

/-- A widget-only sequence carries exactly its widgets. -/
theorem widgetMS_map_widget (ws : List Widget) :
    widgetMS (ws.map Item.widget) = (ws : Multiset Widget) := by
  induction ws with
  | nil => rfl
  | cons w rest ih =>
    rw [List.map_cons, widgetMS_cons, ih]
    rfl

/-- The capture scan splits the scanned items' widgets into the captured
ones and those of the remainder. -/
theorem widgetMS_capture (colCount : Nat) (railTarget : ℚ) (items : List Item)
    (railHeight : ℚ) (railCount : Nat) :
    widgetMS items
      = ↑(captureRun colCount railTarget items railHeight railCount)
        + widgetMS (items.drop
            (captureRun colCount railTarget items railHeight railCount).length) := by
  conv_lhs => rw [← captureRun_decomp colCount railTarget items railHeight railCount]
  rw [widgetMS_append, widgetMS_map_widget]

/-- Coercion of a widget-list cons, as a sum. -/
theorem coe_cons_eq (a : Widget) (l : List Widget) :
    ((a :: l : List Widget) : Multiset Widget) = {a} + (l : Multiset Widget) := by
  rw [← Multiset.cons_coe, ← Multiset.singleton_add]

/-- The composer's loop neither loses, duplicates nor alters widgets: the
widget multiset of its output is that of the scanned prefix plus the
remaining items. -/
theorem transformGo_widgetMS (colCount : Nat) :
    ∀ (n : Nat) (rest acc : List Item), rest.length ≤ n →
      widgetMS (transformGo colCount acc rest) = widgetMS acc + widgetMS rest := by
  intro n
  induction n with
  | zero =>
    intro rest acc hlen
    have : rest = [] := List.length_eq_zero.mp (Nat.le_zero.mp hlen)
    subst this
    rw [transformGo, widgetMS_reverse, widgetMS_nil, add_zero]
  | succ n ih =>
    intro rest acc hlen
    match rest with
    | [] => rw [transformGo, widgetMS_reverse, widgetMS_nil, add_zero]
    | cur :: rest' =>
      simp only [List.length_cons] at hlen
      match cur with
      | .rowblock rb0 =>
        rw [transformGo, ih rest' _ (by omega), widgetMS_cons, widgetMS_cons]
        abel
      | .widget w =>
        by_cases h3 : effectiveSpan w colCount ≠ 3
        · rw [transformGo]
          simp only [if_pos h3]
          rw [ih rest' _ (by omega), widgetMS_cons, widgetMS_cons]
          abel
        · rw [transformGo]
          simp only [if_neg h3]
          by_cases hb : captureRun colCount (w.minHeightRem + toleranceRem) acc 0 0 ≠ []
          · simp only [if_pos hb]
            rw [ih rest' _ (by omega), widgetMS_cons, widgetMS_cons,
              widgetMS_capture colCount (w.minHeightRem + toleranceRem) acc 0 0]
            simp only [flattenItem, Multiset.coe_reverse, coe_cons_eq,
              Multiset.coe_nil, add_zero]
            abel
          · simp only [if_neg hb]
            by_cases hf : captureRun colCount (w.minHeightRem + toleranceRem) rest' 0 0 ≠ []
            · simp only [if_pos hf]
              rw [ih (rest'.drop (captureRun colCount (w.minHeightRem + toleranceRem) rest' 0 0).length) _
                (by
                  have := List.length_drop
                    (captureRun colCount (w.minHeightRem + toleranceRem) rest' 0 0).length rest'
                  omega)]
              rw [widgetMS_cons, widgetMS_cons,
                widgetMS_capture colCount (w.minHeightRem + toleranceRem) rest' 0 0]
              simp only [flattenItem, coe_cons_eq, Multiset.coe_nil, add_zero]
              abel
            · simp only [if_neg hf]
              rw [ih rest' _ (by omega), widgetMS_cons, widgetMS_cons]
              abel


/-- The expansion walk changes spans only, never the referenced items. -/
theorem expandCells_map_item (k ep lo : Nat) :
    ∀ (cells : List Cell) (idx : Nat),
      (expandCells k ep lo cells idx).map Cell.item = cells.map Cell.item := by
  intro cells
  induction cells with
  | nil => intro idx; simp [expandCells]
  | cons c cs ih =>
    intro idx
    by_cases hrb : isRowBlock c.item
    · simp [expandCells, hrb, ih]
    · simp [expandCells, hrb, ih]

/-- The flush changes spans and marks only, never the referenced items. -/
theorem flushRow_map_item (k : Nat) (cur : List Cell) (used : Nat) :
    (flushRow k cur used).map Cell.item = cur.map Cell.item := by
  simp only [flushRow]
  split_ifs <;> simp [expandCells_map_item, List.map_map, Function.comp]

/-- `rowItems` distributes over append. -/
theorem rowItems_append (a b : List Row) :
    rowItems (a ++ b) = rowItems a ++ rowItems b := by
  simp [rowItems]

/-- `rowItems` of a cons. -/
theorem rowItems_cons (r : Row) (b : List Row) :
    rowItems (r :: b) = r.cells.map Cell.item ++ rowItems b := by
  simp [rowItems]

/-- The flush emits exactly the items of the current row. -/
theorem flushEmit_items (k : Nat) (cur : List Cell) (used : Nat) :
    rowItems (flushEmit k cur used) = cur.map Cell.item := by
  simp only [flushEmit]
  split_ifs with h
  · rw [List.isEmpty_iff.mp h]
    rfl
  · simp [rowItems, flushRow_map_item]

/-- The packer's loop emits exactly the current row's items followed by the
remaining input items, in order. -/
theorem packRowsGo_items (k : Nat) :
    ∀ (items : List Item) (cur : List Cell) (used : Nat),
      rowItems (packRowsGo k items cur used) = cur.map Cell.item ++ items := by
  intro items
  induction items with
  | nil =>
    intro cur used
    simp [packRowsGo, flushEmit_items]
  | cons item rest ih =>
    intro cur used
    simp only [packRowsGo]
    by_cases hfull : itemSpan item k ≥ k
    · rw [if_pos hfull, rowItems_append, flushEmit_items, rowItems_cons, ih]
      simp
    · rw [if_neg hfull]
      by_cases hov : used + itemSpan item k > k
      · rw [if_pos hov, rowItems_append, flushEmit_items, ih]
        simp
      · rw [if_neg hov, ih]
        simp

/-- Claim C10: the composer and the packer are pure in their inputs: the
composer's output references exactly the input's widgets (as a multiset),
the packer's rows reference exactly the input items in order (new cell
records are built rather than input elements altered), and a section's
layout references exactly the section's own widget list. -/
theorem C10_no_mutation :
    (∀ (items : List Item) (colCount : Nat),
      widgetMS (transformRowBlocks items colCount) = widgetMS items) ∧
    (∀ (items : List Item) (colCount : Nat),
      rowItems (packRows items colCount) = items) ∧
    (∀ (sec : Section) (containerWidth : ℚ),
      widgetMS (rowItems (layoutSection sec containerWidth).rows)
        = (sectionWidgets sec : Multiset Widget)) := by
  have h1 : ∀ (items : List Item) (colCount : Nat),
      widgetMS (transformRowBlocks items colCount) = widgetMS items := by
    intro items colCount
    unfold transformRowBlocks
    split_ifs with hc
    · rfl
    · rw [transformGo_widgetMS colCount items.length items [] le_rfl, widgetMS_nil,
        zero_add]
  have h2 : ∀ (items : List Item) (colCount : Nat),
      rowItems (packRows items colCount) = items := by
    intro items colCount
    rw [packRows, packRowsGo_items]
    simp
  refine ⟨h1, h2, ?_⟩
  intro sec containerWidth
  cases sec with
  | widgetSection i t ws =>
    simp only [layoutSection, Layout.rows]
    rw [h2, h1, widgetMS_map_widget]
    rfl
  | filterGroup i g =>
    simp only [layoutSection, Layout.rows]
    rw [h2, h1, widgetMS_map_widget]
    rfl


/-- Valid zones are passed through the validity filter unchanged. -/
theorem partitionZones_valid_mem (sections : List Section) (containerWidth : ℚ)
    (draggedSize : WSize) :
    ∀ (zones : List DropZone),
      ∀ z ∈ (partitionZones sections containerWidth draggedSize zones).1, z ∈ zones := by
  intro zones
  induction zones with
  | nil => intro z hz; simp [partitionZones] at hz
  | cons zone rest ih =>
    intro z hz
    simp only [partitionZones] at hz
    match htype : zone.type with
    | .betweenSections =>
      rw [htype] at hz
      rcases List.mem_cons.mp hz with rfl | hz
      · exact List.mem_cons_self _ _
      · exact List.mem_cons_of_mem _ (ih z hz)
    | .withinSection | .withinFilterGroup =>
      rw [htype] at hz
      by_cases hfit : canWidgetFitInSection sections containerWidth draggedSize
          (zone.sectionId.getD "") = true
      · rw [if_pos hfit] at hz
        rcases List.mem_cons.mp hz with rfl | hz
        · exact List.mem_cons_self _ _
        · exact List.mem_cons_of_mem _ (ih z hz)
      · rw [if_neg hfit] at hz
        exact List.mem_cons_of_mem _ (ih z hz)

/-- Invalid zones are exactly flagged copies of non-`between-sections`
zones of the input. -/
theorem partitionZones_invalid_mem (sections : List Section) (containerWidth : ℚ)
    (draggedSize : WSize) :
    ∀ (zones : List DropZone),
      ∀ z ∈ (partitionZones sections containerWidth draggedSize zones).2,
        ∃ z0 ∈ zones, z = { z0 with isInvalid := true }
          ∧ z0.type ≠ ZoneType.betweenSections := by
  intro zones
  induction zones with
  | nil => intro z hz; simp [partitionZones] at hz
  | cons zone rest ih =>
    intro z hz
    simp only [partitionZones] at hz
    match htype : zone.type with
    | .betweenSections =>
      rw [htype] at hz
      obtain ⟨z0, hz0, hc⟩ := ih z hz
      exact ⟨z0, List.mem_cons_of_mem _ hz0, hc⟩
    | .withinSection | .withinFilterGroup =>
      rw [htype] at hz
      by_cases hfit : canWidgetFitInSection sections containerWidth draggedSize
          (zone.sectionId.getD "") = true
      · rw [if_pos hfit] at hz
        obtain ⟨z0, hz0, hc⟩ := ih z hz
        exact ⟨z0, List.mem_cons_of_mem _ hz0, hc⟩
      · rw [if_neg hfit] at hz
        rcases List.mem_cons.mp hz with rfl | hz
        · refine ⟨zone, List.mem_cons_self _ _, ?_, ?_⟩
          · rw [htype]
          · rw [htype]
            intro h
            cases h
        · obtain ⟨z0, hz0, hc⟩ := ih z hz
          exact ⟨z0, List.mem_cons_of_mem _ hz0, hc⟩

/-- Flagging a zone does not move it: the hit test is unchanged. -/
theorem zoneContains_flag (z : DropZone) (x y : ℚ) :
    zoneContains { z with isInvalid := true } x y = zoneContains z x y := rfl

/-- Claim C7 (amended): with a drag in progress and the pointer inside the
canvas, the resolver's two scan loops behave as follows over unflagged
generated zones: the valid partition keeps zones unflagged and the invalid
partition holds flagged non-`between-sections` zones; if some valid zone
contains the pointer the resolver returns the first such zone (therefore an
unflagged one, never an invalid zone); only if no valid zone contains the
pointer does it return the first containing invalid zone; and it returns
null when no zone contains the pointer. -/
theorem C7_resolution_order :
    ∀ (sections : List Section) (containerWidth : ℚ) (draggedSize : WSize)
      (canvasRect : Rect) (dropZones : List DropZone) (x y : ℚ),
      ¬ (x < canvasRect.left ∨ x > canvasRect.right
          ∨ y < canvasRect.top ∨ y > canvasRect.bottom) →
      (∀ z ∈ dropZones, z.isInvalid = false) →
      ((∀ z ∈ (partitionZones sections containerWidth draggedSize dropZones).1,
          z.isInvalid = false) ∧
       (∀ z ∈ (partitionZones sections containerWidth draggedSize dropZones).2,
          z.isInvalid = true ∧ z.type ≠ ZoneType.betweenSections)) ∧
      (∀ z : DropZone,
        (partitionZones sections containerWidth draggedSize dropZones).1.find?
            (fun zone => zoneContains zone x y) = some z →
        getDropTarget sections containerWidth (some draggedSize) canvasRect dropZones x y
          = some z ∧ z.isInvalid = false) ∧
      ((partitionZones sections containerWidth draggedSize dropZones).1.find?
          (fun zone => zoneContains zone x y) = none →
        getDropTarget sections containerWidth (some draggedSize) canvasRect dropZones x y
          = (partitionZones sections containerWidth draggedSize dropZones).2.find?
              (fun zone => zoneContains zone x y)) ∧
      ((∀ z ∈ dropZones, zoneContains z x y = false) →
        getDropTarget sections containerWidth (some draggedSize) canvasRect dropZones x y
          = none) := by
  intro sections containerWidth draggedSize canvasRect dropZones x y hin hclean
  have hvalid : ∀ z ∈ (partitionZones sections containerWidth draggedSize dropZones).1,
      z.isInvalid = false :=
    fun z hz => hclean z (partitionZones_valid_mem _ _ _ dropZones z hz)
  have hinvalid : ∀ z ∈ (partitionZones sections containerWidth draggedSize dropZones).2,
      z.isInvalid = true ∧ z.type ≠ ZoneType.betweenSections := by
    intro z hz
    obtain ⟨z0, _, hzz, hty⟩ := partitionZones_invalid_mem _ _ _ dropZones z hz
    subst hzz
    refine ⟨rfl, ?_⟩
    exact hty
  refine ⟨⟨hvalid, hinvalid⟩, ?_, ?_, ?_⟩
  · intro z hfind
    refine ⟨?_, hvalid z (List.mem_of_find?_eq_some hfind)⟩
    rw [getDropTarget, if_neg hin]
    simp only [hfind]
  · intro hfind
    rw [getDropTarget, if_neg hin]
    simp only [hfind]
  · intro hnone
    have hv : (partitionZones sections containerWidth draggedSize dropZones).1.find?
        (fun zone => zoneContains zone x y) = none := by
      rw [List.find?_eq_none]
      intro z hz
      simp [hnone z (partitionZones_valid_mem _ _ _ dropZones z hz)]
    have hiv : (partitionZones sections containerWidth draggedSize dropZones).2.find?
        (fun zone => zoneContains zone x y) = none := by
      rw [List.find?_eq_none]
      intro z hz
      obtain ⟨z0, hz0, rfl, _⟩ := partitionZones_invalid_mem _ _ _ dropZones z hz
      simp [zoneContains_flag, hnone z0 hz0]
    rw [getDropTarget, if_neg hin]
    simp only [hv, hiv]


/-- Claim C7 (counterexample): the pointer (5,5) lies inside a flagged
within-section zone and inside a valid between-sections zone, yet the
resolver returns a different, earlier-generated valid within-section zone
rather than the between-sections zone: the first geometric match among the
valid zones wins, not the between-sections zone as such. -/
theorem C7_resolution_counterexample :
    zoneContains zoneRejected 5 5 = true ∧
    zoneContains zoneBetween 5 5 = true ∧
    (partitionZones sampleSections 1300 WSize.L
        [zoneAccepted, zoneRejected, zoneBetween]).2
      = [{ zoneRejected with isInvalid := true }] ∧
    getDropTarget sampleSections 1300 (some WSize.L) sampleCanvas
        [zoneAccepted, zoneRejected, zoneBetween] 5 5 = some zoneAccepted ∧
    zoneAccepted ≠ zoneBetween ∧
    zoneAccepted.type ≠ ZoneType.betweenSections := by
  refine ⟨?_, ?_, ?_, ?_, ?_, ?_⟩ <;>
    norm_num +decide [getDropTarget, partitionZones, zoneContains,
      canWidgetFitInSection, fitSimulation, oracleRecover, syntheticWidget,
      getWidgetConfig, getColCountFromWidth, transformRowBlocks, transformGo,
      captureRun, canTake, effectiveSpan, itemSpan, isRowBlock, packRows,
      packRowsGo, flushEmit, flushRow, expandCells, vGapRem, toleranceRem,
      maxRailItems, TOKENS_minHeightsRem_M, TOKENS_minHeightsRem_L,
      TOKENS_minHeightsRem_S, TOKENS_minHeightsRem_XS, sampleSections, sampleM,
      zoneAccepted, zoneRejected, zoneBetween, sampleCanvas, Section.id]

/-- Witness for the amended C7 at the sample zones: the resolver returns the
first valid zone containing the pointer. -/
theorem C7_resolution_order_witness :
    getDropTarget sampleSections 1300 (some WSize.L) sampleCanvas
        [zoneAccepted, zoneRejected, zoneBetween] 5 5
      = some zoneAccepted ∧ zoneAccepted.isInvalid = false := by
  refine (C7_resolution_order sampleSections 1300 WSize.L sampleCanvas
      [zoneAccepted, zoneRejected, zoneBetween] 5 5
      (by norm_num [sampleCanvas]) (by decide)).2.1 zoneAccepted ?_
  norm_num +decide [partitionZones, zoneContains,
    canWidgetFitInSection, fitSimulation, oracleRecover, syntheticWidget,
    getWidgetConfig, getColCountFromWidth, transformRowBlocks, transformGo,
    captureRun, canTake, effectiveSpan, itemSpan, isRowBlock, packRows,
    packRowsGo, flushEmit, flushRow, expandCells, vGapRem, toleranceRem,
    maxRailItems, TOKENS_minHeightsRem_M, TOKENS_minHeightsRem_L,
    TOKENS_minHeightsRem_S, TOKENS_minHeightsRem_XS, sampleSections, sampleM,
    zoneAccepted, zoneRejected, zoneBetween, Section.id]

end Dashboard
